import Mathlib

/-!
# kivik: the iterator core and the scan primitive

A shallow embedding of `iterator.go` (package `kivik`): the `Iterator`
cursor that wraps a driver feed, and the `scan` helper.

Modelling conventions.

* A Go `error` value is an `Option GoError`; `none` is `nil`.
* The feed (the Go interface `iterator`) is a record of three methods over
  an abstract feed state `σ`; each method returns its Go result together
  with the feed's new state.  The slot `curVal` has type `V`; `Next`
  receives the slot and returns its new content.
* Methods of `*Iterator` are state-passing functions: they return the Go
  result paired with the iterator after the call.
* The field `log` is a ghost trace (newest call first) of the calls the
  iterator made on its feed and on its `cancel` function; it has no
  counterpart in the Go struct and is only ever extended at the call
  sites of `feed.SetValue`, `feed.Next`, `feed.Close` and `cancel`.
* Calls are sequential.  The mutex `mu` is left out of the plain methods;
  the section on the lock discipline repeats them with `mu` and proves that
  they compute the same.
-/

namespace Kivik

/-! ## Errors -/

/-- Go error values that the iterator distinguishes or creates. -/
inductive GoError where
  /-- The end-of-stream signal `io.EOF`. -/
  | EOF
  /-- The cancellation cause `context.Canceled`. -/
  | Canceled
  /-- The cancellation cause `context.DeadlineExceeded`. -/
  | DeadlineExceeded
  /-- Any other error, as made by `errors.New msg`. -/
  | New (msg : String)
  deriving DecidableEq, Repr

/-! ## The feed interface -/

/-- The Go interface `iterator`: the feed wrapped by an `Iterator`. -/
structure iterator (σ V : Type) where
  /-- Called once; returns a zero value for the slot. -/
  SetValue : σ → V × σ
  /-- Advance into the slot; `none` is success. -/
  Next : σ → V → Option GoError × σ × V
  /-- Release the feed. -/
  Close : σ → Option GoError × σ

/-- One call made by the iterator on a collaborator (ghost trace entry). -/
inductive Call where
  | setValue
  | feedNext (r : Option GoError)
  | feedClose (r : Option GoError)
  | cancel
  deriving DecidableEq, Repr

/-- Is the entry a call of the feed's `Close`? -/
def Call.isFeedClose : Call → Bool
  | .feedClose _ => true
  | _ => false

/-- Is the entry a call of the feed's `Next`? -/
def Call.isFeedNext : Call → Bool
  | .feedNext _ => true
  | _ => false

/-- Does the entry end the feed's life: a `Close`, or a `Next` that
returned a non-nil value? -/
def Call.isTerminal : Call → Bool
  | .feedClose _ => true
  | .feedNext (some _) => true
  | _ => false

/-! ## The Iterator struct -/

/-- The Go struct `Iterator` (without the mutex), plus the ghost trace. -/
structure Iterator (σ V : Type) where
  /-- State of the owned feed. -/
  feed : σ
  /-- Set to true once Next() has been called. -/
  ready : Bool
  closed : Bool
  /-- The recorded error; `none` is nil. -/
  lasterr : Option GoError
  /-- Whether the field `cancel` is a non-nil function. -/
  cancel : Bool
  curVal : V
  /-- Ghost: calls made so far, newest first. -/
  log : List Call

namespace Iterator

variable {σ V : Type}

/-- Number of times the feed's `Close` has been invoked. -/
def feedCloseCalls (i : Iterator σ V) : Nat := i.log.countP Call.isFeedClose

/-- Number of times the feed's `Next` has been invoked. -/
def feedNextCalls (i : Iterator σ V) : Nat := i.log.countP Call.isFeedNext

/-- The method `rlock`: the returned `err`; `none` means that the shared
lock was granted (a non-nil `unlock` is returned). -/
def rlock (i : Iterator σ V) : Option GoError :=
  if i.closed then
    some (GoError.New "kivik: Iterator is closed")
  else if !i.ready then
    some (GoError.New "kivik: Iterator access before calling Next")
  else
    none

/-- The method `next`: returns `(doClose, ok)` and the iterator after. -/
def next (F : iterator σ V) (i : Iterator σ V) : (Bool × Bool) × Iterator σ V :=
  if i.closed then
    ((false, false), i)
  else
    let r := F.Next i.feed i.curVal
    let i1 : Iterator σ V :=
      { i with ready := true, lasterr := r.1, feed := r.2.1, curVal := r.2.2,
               log := Call.feedNext r.1 :: i.log }
    if i1.lasterr ≠ none then
      ((true, false), i1)
    else
      ((false, true), i1)

/-- The method `close(err)`. -/
def close (F : iterator σ V) (i : Iterator σ V) (err : Option GoError) :
    Option GoError × Iterator σ V :=
  if i.closed then
    (none, i)
  else
    let i1 : Iterator σ V := { i with closed := true }
    let i2 : Iterator σ V := if i1.lasterr = none then { i1 with lasterr := err } else i1
    let c := F.Close i2.feed
    let i3 : Iterator σ V := { i2 with feed := c.2, log := Call.feedClose c.1 :: i2.log }
    let i4 : Iterator σ V := if i3.cancel then { i3 with log := Call.cancel :: i3.log } else i3
    (c.1, i4)

/-- The method `Close`. -/
def Close (F : iterator σ V) (i : Iterator σ V) : Option GoError × Iterator σ V :=
  i.close F none

/-- The method `Next`. -/
def Next (F : iterator σ V) (i : Iterator σ V) : Bool × Iterator σ V :=
  let r := i.next F
  if r.1.1 then
    (r.1.2, (r.2.Close F).2)
  else
    (r.1.2, r.2)

/-- The method `Err`. -/
def Err (i : Iterator σ V) : Option GoError × Iterator σ V :=
  if i.lasterr = some GoError.EOF then
    (none, i)
  else
    (i.lasterr, i)

end Iterator

/-- The constructor `newIterator`: the feed supplies the slot, a cancel
function is installed, and the watcher `awaitDone` is started (its only
action, `close(ctx.Err())`, is the operation `Op.awaitDone` below). -/
def newIterator {σ V : Type} (F : iterator σ V) (feed : σ) : Iterator σ V :=
  let v := F.SetValue feed
  { feed := v.2, ready := false, closed := false, lasterr := none, cancel := true,
    curVal := v.1, log := [Call.setValue] }

/-! ## Sequences of calls -/

/-- A call on an iterator: the three public methods, and the watcher
`awaitDone` firing with the cancellation cause `ctx.Err()`. -/
inductive Op where
  | Next
  | Close
  | Err
  | awaitDone (cause : Option GoError)
  deriving DecidableEq, Repr

/-- The iterator after one call. -/
def step {σ V : Type} (F : iterator σ V) (i : Iterator σ V) : Op → Iterator σ V
  | .Next => (i.Next F).2
  | .Close => (i.Close F).2
  | .Err => i.Err.2
  | .awaitDone cause => (i.close F cause).2

/-- The iterator after a sequence of calls, first call first. -/
def run {σ V : Type} (F : iterator σ V) (i : Iterator σ V) (ops : List Op) : Iterator σ V :=
  ops.foldl (step F) i

/-! ## A scripted feed, after the test double `mockIterator` -/

/-- The test double `mockIterator` of the package tests: `Next` returns
`nextResult` and `Close` returns `closeResult`, whatever the state; the
feed state counts the calls received. -/
def mockIterator (nextResult closeResult : Option GoError) : iterator Nat Nat where
  SetValue := fun s => (0, s)
  Next := fun s v => (nextResult, s + 1, v + 1)
  Close := fun s => (closeResult, s + 1)

/-! ## The typed facade for database updates -/

/-- The record `driver.DBUpdate` held in the slot of a `DBUpdates`
iterator, with the three fields the package tests set. -/
structure DBUpdate where
  DBName : String
  Type_ : String
  Seq : String
  deriving DecidableEq, Repr

namespace DBUpdates

variable {σ : Type}

/-- Modelled from the spec: the accessor `DBName` of the typed facade
`DBUpdates` (its file is not among the sources; the spec, section 4.3, says
that a per-field accessor returns the zero value of the field's type if
`ready == false`, otherwise the corresponding field of the current value). -/
def DBName (i : Iterator σ DBUpdate) : String × Iterator σ DBUpdate :=
  if i.ready = false then ("", i) else (i.curVal.DBName, i)

/-- Modelled from the spec: the accessor `Type` of the typed facade
`DBUpdates` (its file is not among the sources; same rule as `DBName`). -/
def Type_ (i : Iterator σ DBUpdate) : String × Iterator σ DBUpdate :=
  if i.ready = false then ("", i) else (i.curVal.Type_, i)

/-- Modelled from the spec: the accessor `Seq` of the typed facade
`DBUpdates` (its file is not among the sources; same rule as `DBName`). -/
def Seq (i : Iterator σ DBUpdate) : String × Iterator σ DBUpdate :=
  if i.ready = false then ("", i) else (i.curVal.Seq, i)

end DBUpdates

/-! ## The scan primitive -/

/-- A byte. -/
abbrev GoByte := Fin 256

/-- A Go value of type `[]byte` or `json.RawMessage`: `none` is the nil
slice, `some bs` a slice with contents `bs`. -/
abbrev Bytes := Option (List GoByte)

/-- The contents of a slice (a nil slice has none). -/
def Bytes.toList : Bytes → List GoByte
  | none => []
  | some bs => bs

/-- The builtin `len`. -/
def Bytes.len (b : Bytes) : Nat := b.toList.length

/-- The builtin `make([]byte, n)`: a fresh zeroed slice of length `n`. -/
def make (n : Nat) : Bytes := some (List.replicate n 0)

/-- The builtin `copy(dst, src)`: overwrites the first
`min (len dst) (len src)` bytes of `dst`; returns `dst` after the copy. -/
def copy (dst src : Bytes) : Bytes :=
  dst.map fun d => src.toList.take (min d.length src.len) ++ d.drop (min d.length src.len)

/-- The destination `dest interface{}` of `scan`, by dynamic type: a
`*[]byte`, a `*json.RawMessage` (for both, `none` is the nil pointer and
`some a` points to the variable at address `a`), or anything else. -/
inductive Dest (D : Type) where
  | bytesPtr (d : Option Nat)
  | rawMessagePtr (d : Option Nat)
  | other (d : D)

/-- Memory: the byte-slice variables by address, and the rest `W`. -/
structure Mem (W : Type) where
  slices : Nat → Bytes
  rest : W

/-- Assignment `*d = v` to the slice variable at address `a`. -/
def Mem.store {W : Type} (m : Mem W) (a : Nat) (v : Bytes) : Mem W :=
  { m with slices := fun b => if b = a then v else m.slices b }

/-- The function `scan`.  The sentinel `errNilPtr` (declared outside the
sources) and `json.Unmarshal` are parameters. -/
def scan {D W : Type} (errNilPtr : GoError)
    (Unmarshal : Bytes → D → Mem W → Option GoError × Mem W)
    (dest : Dest D) (val : Bytes) (m : Mem W) : Option GoError × Mem W :=
  match dest with
  | .bytesPtr d =>
    match d with
    | none => (some errNilPtr, m)
    | some a =>
      let tgt := copy (make val.len) val
      (none, m.store a tgt)
  | .rawMessagePtr d =>
    match d with
    | none => (some errNilPtr, m)
    | some a => (none, m.store a val)
  | .other d => Unmarshal val d m

/-! ## The lock discipline

The methods once more, statement by statement, with the mutex `mu`: the
execution state records how the executing goroutine holds `mu` and, for
every assignment to a field of the iterator, the mode in which `mu` was held
at that moment. -/

/-- How the executing goroutine holds the mutex `mu`: not at all, in shared
mode (after `RLock`), or in exclusive mode (after `Lock`). -/
inductive Held where
  | unlocked
  | shared
  | exclusive
  deriving DecidableEq, Repr

/-- The fields of `Iterator` that its methods assign. -/
inductive Field where
  | ready
  | closed
  | lasterr
  deriving DecidableEq, Repr

/-- An assignment to a field, and how `mu` was held when it was made. -/
structure Write where
  field : Field
  held : Held
  deriving DecidableEq, Repr

/-- An execution state: the iterator, how `mu` is held, and the assignments
made so far, newest first. -/
structure Locked (σ V : Type) where
  it : Iterator σ V
  mu : Held
  writes : List Write

namespace Locked

variable {σ V : Type}

/-- The call `i.mu.RLock()`. -/
def RLock (e : Locked σ V) : Locked σ V := { e with mu := Held.shared }

/-- The call `i.mu.RUnlock()`. -/
def RUnlock (e : Locked σ V) : Locked σ V := { e with mu := Held.unlocked }

/-- The call `i.mu.Lock()`. -/
def Lock (e : Locked σ V) : Locked σ V := { e with mu := Held.exclusive }

/-- The call `i.mu.Unlock()`. -/
def Unlock (e : Locked σ V) : Locked σ V := { e with mu := Held.unlocked }

/-- The assignment `i.ready = b`. -/
def setReady (e : Locked σ V) (b : Bool) : Locked σ V :=
  { e with it := { e.it with ready := b }, writes := ⟨Field.ready, e.mu⟩ :: e.writes }

/-- The assignment `i.closed = b`. -/
def setClosed (e : Locked σ V) (b : Bool) : Locked σ V :=
  { e with it := { e.it with closed := b }, writes := ⟨Field.closed, e.mu⟩ :: e.writes }

/-- The assignment `i.lasterr = err`. -/
def setLasterr (e : Locked σ V) (err : Option GoError) : Locked σ V :=
  { e with it := { e.it with lasterr := err }, writes := ⟨Field.lasterr, e.mu⟩ :: e.writes }

/-- The method `next`, with its locking: `RLock`, deferred `RUnlock`. -/
def next (F : iterator σ V) (e : Locked σ V) : (Bool × Bool) × Locked σ V :=
  let e1 := e.RLock
  if e1.it.closed then
    ((false, false), e1.RUnlock)
  else
    let e2 := e1.setReady true
    let r := F.Next e2.it.feed e2.it.curVal
    let e3 : Locked σ V :=
      { e2 with it := { e2.it with feed := r.2.1, curVal := r.2.2,
                                   log := Call.feedNext r.1 :: e2.it.log } }
    let e4 := e3.setLasterr r.1
    if e4.it.lasterr ≠ none then
      ((true, false), e4.RUnlock)
    else
      ((false, true), e4.RUnlock)

/-- The method `close(err)`, with its locking: `Lock`, deferred `Unlock`. -/
def close (F : iterator σ V) (e : Locked σ V) (err : Option GoError) :
    Option GoError × Locked σ V :=
  let e1 := e.Lock
  if e1.it.closed then
    (none, e1.Unlock)
  else
    let e2 := e1.setClosed true
    let e3 := if e2.it.lasterr = none then e2.setLasterr err else e2
    let c := F.Close e3.it.feed
    let e4 : Locked σ V :=
      { e3 with it := { e3.it with feed := c.2, log := Call.feedClose c.1 :: e3.it.log } }
    let e5 : Locked σ V :=
      if e4.it.cancel then { e4 with it := { e4.it with log := Call.cancel :: e4.it.log } }
      else e4
    (c.1, e5.Unlock)

/-- The method `Close`. -/
def Close (F : iterator σ V) (e : Locked σ V) : Option GoError × Locked σ V :=
  e.close F none

/-- The method `Next`. -/
def Next (F : iterator σ V) (e : Locked σ V) : Bool × Locked σ V :=
  let r := e.next F
  if r.1.1 then
    (r.1.2, (r.2.Close F).2)
  else
    (r.1.2, r.2)

/-- The method `Err`, with its locking: `RLock`, deferred `RUnlock`. -/
def Err (e : Locked σ V) : Option GoError × Locked σ V :=
  let e1 := e.RLock
  if e1.it.lasterr = some GoError.EOF then
    (none, e1.RUnlock)
  else
    (e1.it.lasterr, e1.RUnlock)

/-- The start of a call on iterator `i`: `mu` not held by the caller, no
assignment made yet. -/
def start (i : Iterator σ V) : Locked σ V := { it := i, mu := Held.unlocked, writes := [] }

end Locked

/-- Every assignment of the list was made with `mu` held in exclusive mode. -/
def AllExclusive (ws : List Write) : Prop := ∀ w ∈ ws, w.held = Held.exclusive

/-- Every assignment of the list was made with `mu` held, in either mode. -/
def AllHeld (ws : List Write) : Prop := ∀ w ∈ ws, w.held ≠ Held.unlocked

/-! ## The lifecycle invariant -/

/-- In the trace (newest first), no call of the feed's `Next` is later than
a call that ended the feed's life. -/
def TraceOrdered (log : List Call) : Prop :=
  log.Pairwise fun later earlier => earlier.isTerminal = true → later.isFeedNext = false

/-- The invariant of the iterator's life cycle: the feed has been closed
once if the iterator is closed and never otherwise; an error is recorded
only if the iterator is closed; while the iterator is open no call has
ended the feed's life; and the trace is ordered. -/
structure Inv {σ V : Type} (i : Iterator σ V) : Prop where
  closeCalls : i.feedCloseCalls = if i.closed then 1 else 0
  lasterr : i.closed = false → i.lasterr = none
  live : i.closed = false → ∀ c ∈ i.log, c.isTerminal = false
  ordered : TraceOrdered i.log

/-! ## Theorems -/

section IteratorTheorems

variable {σ V : Type}

/-- The method `Err` returns the iterator as it was. -/
theorem Err_snd (i : Iterator σ V) : i.Err.2 = i := by
  unfold Iterator.Err
  split <;> rfl

/-- On a closed iterator every call is a no-op. -/
theorem step_of_closed (F : iterator σ V) (i : Iterator σ V) (op : Op)
    (h : i.closed = true) : step F i op = i := by
  cases op with
  | Err => exact Err_snd i
  | Next => simp [step, Iterator.Next, Iterator.next, h]
  | Close => simp [step, Iterator.Close, Iterator.close, h]
  | awaitDone cause => simp [step, Iterator.close, h]

/-- On a closed iterator every sequence of calls is a no-op. -/
theorem run_of_closed (F : iterator σ V) (i : Iterator σ V) (ops : List Op)
    (h : i.closed = true) : run F i ops = i := by
  induction ops with
  | nil => rfl
  | cons op ops ih =>
    have hs : run F i (op :: ops) = run F (step F i op) ops := rfl
    rw [hs, step_of_closed F i op h, ih]

/-- The invariant holds of a new iterator. -/
theorem Inv_newIterator (F : iterator σ V) (feed : σ) : Inv (newIterator F feed) := by
  refine ⟨?_, ?_, ?_, ?_⟩ <;>
    simp [newIterator, Iterator.feedCloseCalls, Call.isFeedClose, Call.isTerminal, TraceOrdered]

/-- The method `close` keeps the invariant. -/
theorem Inv_close (F : iterator σ V) (i : Iterator σ V) (err : Option GoError)
    (h : Inv i) : Inv (i.close F err).2 := by
  by_cases hc : i.closed = true
  · simpa [Iterator.close, hc] using h
  · have hcf : i.closed = false := by simpa using hc
    have hcount := h.closeCalls
    have hlive := h.live hcf
    have hord := h.ordered
    simp only [Iterator.feedCloseCalls, hcf] at hcount
    refine ⟨?_, ?_, ?_, ?_⟩ <;> by_cases hcan : i.cancel = true <;>
      by_cases hl : i.lasterr = none <;>
      simp_all [Iterator.close, Iterator.feedCloseCalls, Call.isFeedClose, Call.isFeedNext,
        Call.isTerminal, TraceOrdered]



/-- The method `Next` keeps the invariant. -/
theorem Inv_Next (F : iterator σ V) (i : Iterator σ V) (h : Inv i) : Inv (i.Next F).2 := by
  by_cases hc : i.closed = true
  · simpa [Iterator.Next, Iterator.next, hc] using h
  · have hcf : i.closed = false := by simpa using hc
    have hcount := h.closeCalls
    have hlive := h.live hcf
    have hord := h.ordered
    simp only [Iterator.feedCloseCalls, hcf] at hcount
    cases hr : (F.Next i.feed i.curVal).1 with
    | none =>
      refine ⟨?_, ?_, ?_, ?_⟩ <;>
        simp_all [Iterator.Next, Iterator.next, Iterator.feedCloseCalls, Call.isFeedClose,
          Call.isFeedNext, Call.isTerminal, TraceOrdered]
    | some r =>
      refine ⟨?_, ?_, ?_, ?_⟩ <;> by_cases hcan : i.cancel = true <;>
        simp_all [Iterator.Next, Iterator.next, Iterator.Close, Iterator.close,
          Iterator.feedCloseCalls, Call.isFeedClose, Call.isFeedNext, Call.isTerminal,
          TraceOrdered]

/-- Every call keeps the invariant. -/
theorem Inv_step (F : iterator σ V) (i : Iterator σ V) (op : Op) (h : Inv i) :
    Inv (step F i op) := by
  cases op with
  | Err => rw [show step F i Op.Err = i from Err_snd i]; exact h
  | Next => exact Inv_Next F i h
  | Close => exact Inv_close F i none h
  | awaitDone cause => exact Inv_close F i cause h

/-- Every sequence of calls keeps the invariant. -/
theorem Inv_run (F : iterator σ V) (ops : List Op) :
    ∀ i : Iterator σ V, Inv i → Inv (run F i ops) := by
  induction ops with
  | nil => intro i h; exact h
  | cons op ops ih => intro i h; exact ih (step F i op) (Inv_step F i op h)

/-- The invariant holds in every state reached from a new iterator. -/
theorem Inv_reachable (F : iterator σ V) (feed : σ) (ops : List Op) :
    Inv (run F (newIterator F feed) ops) :=
  Inv_run F ops _ (Inv_newIterator F feed)

/-- C1: on an iterator that is not closed, if the feed's advance returns
nil then Next returns true and leaves the iterator ready, not closed, with
no recorded error and the feed not released; if the advance returns a
non-nil value r then Next returns false and leaves the iterator closed,
with the feed's Close invoked once more (on the feed as the advance left
it), r recorded, and Err returning nil when r is io.EOF and r otherwise. -/
theorem Next_spec (F : iterator σ V) (i : Iterator σ V) (h : i.closed = false) :
    match (F.Next i.feed i.curVal).1 with
    | none =>
      (i.Next F).1 = true ∧ (i.Next F).2.ready = true ∧ (i.Next F).2.closed = false ∧
      (i.Next F).2.lasterr = none ∧ (i.Next F).2.Err.1 = none ∧
      (i.Next F).2.feedCloseCalls = i.feedCloseCalls ∧
      (i.Next F).2.feed = (F.Next i.feed i.curVal).2.1
    | some r =>
      (i.Next F).1 = false ∧ (i.Next F).2.closed = true ∧
      (i.Next F).2.lasterr = some r ∧
      (i.Next F).2.Err.1 = (if r = GoError.EOF then none else some r) ∧
      (i.Next F).2.feedCloseCalls = i.feedCloseCalls + 1 ∧
      (i.Next F).2.feed = (F.Close (F.Next i.feed i.curVal).2.1).2 := by
  cases hr : (F.Next i.feed i.curVal).1 with
  | none =>
    simp [Iterator.Next, Iterator.next, Iterator.Err, Iterator.feedCloseCalls,
      Call.isFeedClose, h, hr]
  | some r =>
    by_cases hc : i.cancel = true <;> by_cases he : r = GoError.EOF <;>
      simp [Iterator.Next, Iterator.next, Iterator.Close, Iterator.close, Iterator.Err,
        Iterator.feedCloseCalls, Call.isFeedClose, h, hr, hc, he]

/-- C1, at concrete inputs: a fresh iterator over a feed whose advance
returns nil, and one over a feed whose advance returns io.EOF. -/
theorem Next_spec_witness :
    (newIterator (mockIterator none none) 0).closed = false ∧
    (((newIterator (mockIterator none none) 0).Next (mockIterator none none)).1 = true ∧
      ((newIterator (mockIterator none none) 0).Next (mockIterator none none)).2.ready = true ∧
      ((newIterator (mockIterator none none) 0).Next (mockIterator none none)).2.closed = false ∧
      ((newIterator (mockIterator none none) 0).Next (mockIterator none none)).2.lasterr = none ∧
      ((newIterator (mockIterator none none) 0).Next (mockIterator none none)).2.Err.1 = none ∧
      ((newIterator (mockIterator none none) 0).Next
        (mockIterator none none)).2.feedCloseCalls = 0 ∧
      ((newIterator (mockIterator none none) 0).Next (mockIterator none none)).2.feed = 1) ∧
    (newIterator (mockIterator (some GoError.EOF) none) 0).closed = false ∧
    (((newIterator (mockIterator (some GoError.EOF) none) 0).Next
        (mockIterator (some GoError.EOF) none)).1 = false ∧
      ((newIterator (mockIterator (some GoError.EOF) none) 0).Next
        (mockIterator (some GoError.EOF) none)).2.closed = true ∧
      ((newIterator (mockIterator (some GoError.EOF) none) 0).Next
        (mockIterator (some GoError.EOF) none)).2.lasterr = some GoError.EOF ∧
      ((newIterator (mockIterator (some GoError.EOF) none) 0).Next
        (mockIterator (some GoError.EOF) none)).2.Err.1 = none ∧
      ((newIterator (mockIterator (some GoError.EOF) none) 0).Next
        (mockIterator (some GoError.EOF) none)).2.feedCloseCalls = 1 ∧
      ((newIterator (mockIterator (some GoError.EOF) none) 0).Next
        (mockIterator (some GoError.EOF) none)).2.feed = 2) :=
  ⟨rfl, Next_spec (mockIterator none none) (newIterator (mockIterator none none) 0) rfl,
   rfl, Next_spec (mockIterator (some GoError.EOF) none)
     (newIterator (mockIterator (some GoError.EOF) none) 0) rfl⟩

/-- C2: Close is idempotent.  On every iterator, a second Close returns nil
and leaves the whole state (ready, closed, the recorded error, the feed and
the trace of calls made on the feed) exactly as the first Close left it. -/
theorem Close_idempotent (F : iterator σ V) (i : Iterator σ V) :
    (i.Close F).2.Close F = (none, (i.Close F).2) ∧
    ((i.Close F).2.Close F).2.feedCloseCalls = (i.Close F).2.feedCloseCalls := by
  have hc : (i.Close F).2.closed = true := by
    by_cases h : i.closed = true
    · simp [Iterator.Close, Iterator.close, h]
    · by_cases hcan : i.cancel = true <;> by_cases hl : i.lasterr = none <;>
        simp [Iterator.Close, Iterator.close, h, hcan, hl]
  have h2 : (i.Close F).2.Close F = (none, (i.Close F).2) := by
    simp [Iterator.Close, Iterator.close] at hc ⊢
    intro hn
    simp [hn] at hc
  exact ⟨h2, by rw [h2]⟩

/-- C4: Close returns nil on a closed iterator and otherwise exactly what
the feed's Close returns; and in every state, whatever the feed's Close
returns, the recorded error and the value of Err after Close are those
before Close. -/
theorem Close_propagates_feed_error (F : iterator σ V) (i : Iterator σ V) :
    (i.Close F).1 = (if i.closed then none else (F.Close i.feed).1) ∧
    (i.Close F).2.lasterr = i.lasterr ∧
    (i.Close F).2.Err.1 = i.Err.1 := by
  by_cases h : i.closed = true
  · simp [Iterator.Close, Iterator.close, h]
  · by_cases hcan : i.cancel = true <;> by_cases hl : i.lasterr = none <;>
      by_cases he : i.lasterr = some GoError.EOF <;>
      simp [Iterator.Close, Iterator.close, Iterator.Err, h, hcan, hl, he]

/-- C5: in every state, closed or not, Err returns nil exactly when the
recorded error is nil or io.EOF, returns the recorded error unchanged
otherwise, and leaves the iterator as it was. -/
theorem Err_spec (i : Iterator σ V) :
    (i.Err.1 = none ↔ (i.lasterr = none ∨ i.lasterr = some GoError.EOF)) ∧
    i.Err.1 = (if i.lasterr = none ∨ i.lasterr = some GoError.EOF then none else i.lasterr) ∧
    i.Err.2 = i := by
  by_cases h : i.lasterr = some GoError.EOF
  · simp [Iterator.Err, h]
  · by_cases hn : i.lasterr = none
    · simp [Iterator.Err, hn]
    · simp [Iterator.Err, h, hn]

/-- After `Next` the iterator is closed, or `Next` returned true. -/
theorem Next_false_closed (F : iterator σ V) (i : Iterator σ V) :
    (i.Next F).1 = true ∨ (i.Next F).2.closed = true := by
  by_cases hc : i.closed = true
  · right; simp [Iterator.Next, Iterator.next, hc]
  · cases hr : (F.Next i.feed i.curVal).1 with
    | none => left; simp [Iterator.Next, Iterator.next, hc, hr]
    | some r =>
      right
      by_cases hcan : i.cancel = true <;>
        simp [Iterator.Next, Iterator.next, Iterator.Close, Iterator.close, hc, hr, hcan]

/-- On an open iterator whose feed's advance returns a non-nil value,
`Next` records that value and closes. -/
theorem Next_records (F : iterator σ V) (i : Iterator σ V) (r : GoError)
    (hc : i.closed = false) (hr : (F.Next i.feed i.curVal).1 = some r) :
    (i.Next F).2.closed = true ∧ (i.Next F).2.lasterr = some r := by
  by_cases hcan : i.cancel = true <;>
    simp [Iterator.Next, Iterator.next, Iterator.Close, Iterator.close, hc, hr, hcan]

/-- C3: in every state reached from newIterator by any sequence of Next,
Close, Err and cancellation-close calls, the feed's Close has been invoked
exactly once if the iterator is closed and not at all if it is open; so it
is never invoked more than once. -/
theorem feed_closed_exactly_once (F : iterator σ V) (feed : σ) (ops : List Op) :
    (run F (newIterator F feed) ops).feedCloseCalls =
      (if (run F (newIterator F feed) ops).closed then 1 else 0) ∧
    (run F (newIterator F feed) ops).feedCloseCalls ≤ 1 := by
  have h := (Inv_reachable F feed ops).closeCalls
  refine ⟨h, ?_⟩
  rw [h]
  split <;> simp

/-- C6: Next returns false only by leaving the iterator closed; and on a
closed iterator i, after any sequence of Next, Close, Err and
cancellation-close calls the state is still i, a further Next returns false
and leaves the state i, and the feed's advance has not been invoked again.
In every state reached from newIterator the trace of calls is ordered: no
advance of the feed comes after an advance that returned a non-nil value or
after the feed's Close. -/
theorem Next_after_end (F : iterator σ V) (i0 i : Iterator σ V) (ops : List Op)
    (feed : σ) (pre : List Op) (h : i.closed = true) :
    ((i0.Next F).1 = true ∨ (i0.Next F).2.closed = true) ∧
    run F i ops = i ∧
    (run F i ops).Next F = (false, i) ∧
    ((run F i ops).Next F).2.feedNextCalls = i.feedNextCalls ∧
    TraceOrdered (run F (newIterator F feed) pre).log := by
  have hrun := run_of_closed F i ops h
  have hnext : i.Next F = (false, i) := by simp [Iterator.Next, Iterator.next, h]
  refine ⟨Next_false_closed F i0, hrun, ?_, ?_, (Inv_reachable F feed pre).ordered⟩
  · rw [hrun, hnext]
  · rw [hrun, hnext]

/-- C6, at a concrete input: the iterator closed by a Next whose advance
returned io.EOF, followed by Close, a cancellation-close, Err and Next. -/
theorem Next_after_end_witness :
    ((newIterator (mockIterator (some GoError.EOF) none) 0).Next
      (mockIterator (some GoError.EOF) none)).2.closed = true ∧
    (((newIterator (mockIterator (some GoError.EOF) none) 0).Next
        (mockIterator (some GoError.EOF) none)).1 = true ∨
      ((newIterator (mockIterator (some GoError.EOF) none) 0).Next
        (mockIterator (some GoError.EOF) none)).2.closed = true) ∧
    run (mockIterator (some GoError.EOF) none)
        ((newIterator (mockIterator (some GoError.EOF) none) 0).Next
          (mockIterator (some GoError.EOF) none)).2
        [Op.Close, Op.awaitDone (some GoError.Canceled), Op.Err, Op.Next] =
      ((newIterator (mockIterator (some GoError.EOF) none) 0).Next
        (mockIterator (some GoError.EOF) none)).2 ∧
    (run (mockIterator (some GoError.EOF) none)
        ((newIterator (mockIterator (some GoError.EOF) none) 0).Next
          (mockIterator (some GoError.EOF) none)).2
        [Op.Close, Op.awaitDone (some GoError.Canceled), Op.Err, Op.Next]).Next
        (mockIterator (some GoError.EOF) none) =
      (false, ((newIterator (mockIterator (some GoError.EOF) none) 0).Next
        (mockIterator (some GoError.EOF) none)).2) ∧
    ((run (mockIterator (some GoError.EOF) none)
        ((newIterator (mockIterator (some GoError.EOF) none) 0).Next
          (mockIterator (some GoError.EOF) none)).2
        [Op.Close, Op.awaitDone (some GoError.Canceled), Op.Err, Op.Next]).Next
        (mockIterator (some GoError.EOF) none)).2.feedNextCalls = 1 ∧
    TraceOrdered (run (mockIterator (some GoError.EOF) none)
      (newIterator (mockIterator (some GoError.EOF) none) 0) [Op.Next, Op.Next, Op.Close]).log :=
  ⟨rfl, Next_after_end (mockIterator (some GoError.EOF) none)
    (newIterator (mockIterator (some GoError.EOF) none) 0)
    ((newIterator (mockIterator (some GoError.EOF) none) 0).Next
      (mockIterator (some GoError.EOF) none)).2
    [Op.Close, Op.awaitDone (some GoError.Canceled), Op.Err, Op.Next] 0
    [Op.Next, Op.Next, Op.Close] rfl⟩

/-- C7: in a state reached from newIterator in which an error e is
recorded, the iterator is closed, and any further sequence of Next, Close
and cancellation-close calls (with any cause) leaves the state, hence the
recorded error, unchanged: Err keeps returning nil if e is io.EOF and e
otherwise.  In particular, when in a reached open state the feed's advance
returns a non-nil value r, then after that Next and any further calls Err
returns nil if r is io.EOF and r otherwise. -/
theorem lasterr_preserved (F : iterator σ V) (feed : σ) (pre ops : List Op) (e : GoError)
    (feed2 : σ) (pre2 : List Op)
    (h : (run F (newIterator F feed) pre).lasterr = some e) :
    (run F (newIterator F feed) pre).closed = true ∧
    run F (run F (newIterator F feed) pre) ops = run F (newIterator F feed) pre ∧
    (run F (run F (newIterator F feed) pre) ops).lasterr = some e ∧
    (run F (run F (newIterator F feed) pre) ops).Err.1 =
      (if e = GoError.EOF then none else some e) ∧
    (match (run F (newIterator F feed2) pre2).closed,
        (F.Next (run F (newIterator F feed2) pre2).feed
          (run F (newIterator F feed2) pre2).curVal).1 with
      | false, some r =>
        (run F ((run F (newIterator F feed2) pre2).Next F).2 ops).lasterr = some r ∧
        (run F ((run F (newIterator F feed2) pre2).Next F).2 ops).Err.1 =
          (if r = GoError.EOF then none else some r)
      | _, _ => True) := by
  have hinv := Inv_reachable F feed pre
  have hc : (run F (newIterator F feed) pre).closed = true := by
    by_cases hc : (run F (newIterator F feed) pre).closed = true
    · exact hc
    · have := hinv.lasterr (by simpa using hc)
      rw [h] at this
      exact absurd this (by simp)
  have hrun := run_of_closed F _ ops hc
  refine ⟨hc, hrun, ?_, ?_, ?_⟩
  · rw [hrun, h]
  · rw [hrun]
    by_cases he : e = GoError.EOF <;> simp [Iterator.Err, h, he]
  · split
    · next hcl hr =>
      have hn := Next_records F _ _ hcl hr
      rw [run_of_closed F _ ops hn.1]
      refine ⟨hn.2, ?_⟩
      rename_i r
      by_cases he : r = GoError.EOF <;> simp [Iterator.Err, hn.2, he]
    · trivial

/-- C7, at a concrete input: the feed signals io.EOF at the first Next;
then Close, a cancellation-close, Next and Close follow. -/
theorem lasterr_preserved_witness :
    (run (mockIterator (some GoError.EOF) (some (GoError.New "close error")))
      (newIterator (mockIterator (some GoError.EOF) (some (GoError.New "close error"))) 0)
      [Op.Next]).lasterr = some GoError.EOF ∧
    (run (mockIterator (some GoError.EOF) (some (GoError.New "close error")))
      (newIterator (mockIterator (some GoError.EOF) (some (GoError.New "close error"))) 0)
      [Op.Next]).closed = true ∧
    run (mockIterator (some GoError.EOF) (some (GoError.New "close error")))
      (run (mockIterator (some GoError.EOF) (some (GoError.New "close error")))
        (newIterator (mockIterator (some GoError.EOF) (some (GoError.New "close error"))) 0)
        [Op.Next])
      [Op.Close, Op.awaitDone (some GoError.Canceled), Op.Next, Op.Close] =
      run (mockIterator (some GoError.EOF) (some (GoError.New "close error")))
        (newIterator (mockIterator (some GoError.EOF) (some (GoError.New "close error"))) 0)
        [Op.Next] ∧
    (run (mockIterator (some GoError.EOF) (some (GoError.New "close error")))
      (run (mockIterator (some GoError.EOF) (some (GoError.New "close error")))
        (newIterator (mockIterator (some GoError.EOF) (some (GoError.New "close error"))) 0)
        [Op.Next])
      [Op.Close, Op.awaitDone (some GoError.Canceled), Op.Next, Op.Close]).lasterr =
      some GoError.EOF ∧
    (run (mockIterator (some GoError.EOF) (some (GoError.New "close error")))
      (run (mockIterator (some GoError.EOF) (some (GoError.New "close error")))
        (newIterator (mockIterator (some GoError.EOF) (some (GoError.New "close error"))) 0)
        [Op.Next])
      [Op.Close, Op.awaitDone (some GoError.Canceled), Op.Next, Op.Close]).Err.1 = none ∧
    ((run (mockIterator (some GoError.EOF) (some (GoError.New "close error")))
      ((run (mockIterator (some GoError.EOF) (some (GoError.New "close error")))
        (newIterator (mockIterator (some GoError.EOF) (some (GoError.New "close error"))) 7)
        [Op.Err]).Next (mockIterator (some GoError.EOF) (some (GoError.New "close error")))).2
      [Op.Close, Op.awaitDone (some GoError.Canceled), Op.Next, Op.Close]).lasterr =
      some GoError.EOF ∧
    (run (mockIterator (some GoError.EOF) (some (GoError.New "close error")))
      ((run (mockIterator (some GoError.EOF) (some (GoError.New "close error")))
        (newIterator (mockIterator (some GoError.EOF) (some (GoError.New "close error"))) 7)
        [Op.Err]).Next (mockIterator (some GoError.EOF) (some (GoError.New "close error")))).2
      [Op.Close, Op.awaitDone (some GoError.Canceled), Op.Next, Op.Close]).Err.1 = none) :=
  ⟨rfl, lasterr_preserved (mockIterator (some GoError.EOF) (some (GoError.New "close error")))
    0 [Op.Next] [Op.Close, Op.awaitDone (some GoError.Canceled), Op.Next, Op.Close]
    GoError.EOF 7 [Op.Err] rfl⟩

/-- C8: rlock grants access exactly when the iterator is ready and not
closed; on a closed iterator (ready or not) it fails with "kivik: Iterator
is closed", on an open iterator that is not ready with "kivik: Iterator
access before calling Next".  So whenever ready is false, closed or not,
access is refused, and there the accessors DBName, Type and Seq return the
empty string and leave the iterator, its stored value included, as it was. -/
theorem rlock_spec {σ : Type} (i : Iterator σ DBUpdate) :
    (i.rlock = none ↔ (i.ready = true ∧ i.closed = false)) ∧
    i.rlock =
      (if i.closed = true then some (GoError.New "kivik: Iterator is closed")
       else if i.ready = true then none
       else some (GoError.New "kivik: Iterator access before calling Next")) ∧
    (i.ready = false →
      i.rlock ≠ none ∧
      DBUpdates.DBName i = ("", i) ∧ DBUpdates.Type_ i = ("", i) ∧ DBUpdates.Seq i = ("", i)) := by
  refine ⟨?_, ?_, ?_⟩
  · cases hc : i.closed <;> cases hr : i.ready <;> simp [Iterator.rlock, hc, hr]
  · cases hc : i.closed <;> cases hr : i.ready <;> simp [Iterator.rlock, hc, hr]
  · intro hr
    cases hc : i.closed <;>
      simp [Iterator.rlock, DBUpdates.DBName, DBUpdates.Type_, DBUpdates.Seq, hc, hr]

/-- C8, at the state of the package test for the accessors: the stored
value is foo, chicken, abc123 and ready has been set to false. -/
theorem rlock_spec_witness :
    (Iterator.rlock
        (⟨0, false, false, none, false, ⟨"foo", "chicken", "abc123"⟩, []⟩ :
          Iterator Nat DBUpdate) =
      some (GoError.New "kivik: Iterator access before calling Next")) ∧
    ((DBUpdates.DBName
        (⟨0, false, false, none, false, ⟨"foo", "chicken", "abc123"⟩, []⟩ :
          Iterator Nat DBUpdate)).1 = "" ∧
      (DBUpdates.DBName
        (⟨0, false, false, none, false, ⟨"foo", "chicken", "abc123"⟩, []⟩ :
          Iterator Nat DBUpdate)).2.curVal = ⟨"foo", "chicken", "abc123"⟩) :=
  ⟨(rlock_spec (⟨0, false, false, none, false, ⟨"foo", "chicken", "abc123"⟩, []⟩ :
      Iterator Nat DBUpdate)).2.1,
   congrArg Prod.fst ((rlock_spec (⟨0, false, false, none, false,
      ⟨"foo", "chicken", "abc123"⟩, []⟩ : Iterator Nat DBUpdate)).2.2 rfl).2.1,
   congrArg (fun r => r.2.curVal) ((rlock_spec (⟨0, false, false, none, false,
      ⟨"foo", "chicken", "abc123"⟩, []⟩ : Iterator Nat DBUpdate)).2.2 rfl).2.1⟩

/-- C9: on an iterator that is open and has no recorded error, a
cancellation-close with a non-nil cause c records c (Err then returns nil
if c is io.EOF and c otherwise), closes the iterator and invokes the feed's
Close once; whereas after an explicit Close no error is recorded, and a
later cancellation-close with cause c returns nil and changes nothing, so
that Err returns nil. -/
theorem first_close_decides (F : iterator σ V) (i : Iterator σ V) (c : GoError)
    (hc : i.closed = false) (hl : i.lasterr = none) :
    (i.close F (some c)).2.lasterr = some c ∧
    (i.close F (some c)).2.Err.1 = (if c = GoError.EOF then none else some c) ∧
    (i.close F (some c)).2.closed = true ∧
    (i.close F (some c)).2.feedCloseCalls = i.feedCloseCalls + 1 ∧
    (i.close F (some c)).2.feed = (F.Close i.feed).2 ∧
    (i.Close F).2.lasterr = none ∧
    (i.Close F).2.close F (some c) = (none, (i.Close F).2) ∧
    ((i.Close F).2.close F (some c)).2.Err.1 = none := by
  by_cases hcan : i.cancel = true <;> by_cases he : c = GoError.EOF <;>
    simp [Iterator.Close, Iterator.close, Iterator.Err, Iterator.feedCloseCalls,
      Call.isFeedClose, hc, hl, hcan, he]

/-- C9, at a concrete input: a new iterator and the cause context.Canceled. -/
theorem first_close_decides_witness :
    (newIterator (mockIterator none none) 0).closed = false ∧
    (newIterator (mockIterator none none) 0).lasterr = none ∧
    ((newIterator (mockIterator none none) 0).close (mockIterator none none)
      (some GoError.Canceled)).2.lasterr = some GoError.Canceled ∧
    ((newIterator (mockIterator none none) 0).close (mockIterator none none)
      (some GoError.Canceled)).2.Err.1 = some GoError.Canceled ∧
    ((newIterator (mockIterator none none) 0).close (mockIterator none none)
      (some GoError.Canceled)).2.closed = true ∧
    ((newIterator (mockIterator none none) 0).close (mockIterator none none)
      (some GoError.Canceled)).2.feedCloseCalls = 1 ∧
    ((newIterator (mockIterator none none) 0).close (mockIterator none none)
      (some GoError.Canceled)).2.feed = 1 ∧
    ((newIterator (mockIterator none none) 0).Close (mockIterator none none)).2.lasterr = none ∧
    ((newIterator (mockIterator none none) 0).Close (mockIterator none none)).2.close
        (mockIterator none none) (some GoError.Canceled) =
      (none, ((newIterator (mockIterator none none) 0).Close (mockIterator none none)).2) ∧
    (((newIterator (mockIterator none none) 0).Close (mockIterator none none)).2.close
        (mockIterator none none) (some GoError.Canceled)).2.Err.1 = none :=
  ⟨rfl, rfl, first_close_decides (mockIterator none none)
    (newIterator (mockIterator none none) 0) GoError.Canceled rfl rfl⟩

end IteratorTheorems

section ScanTheorems

variable {D W : Type}

/-- A fresh slice of the length of `val`, filled by `copy`, has the contents
of `val` and is never the nil slice. -/
theorem copy_make (val : Bytes) : copy (make val.len) val = some val.toList := by
  simp [copy, make, Bytes.len]

/-- Reading the variable that was just assigned. -/
theorem Mem.store_slices_self (m : Mem W) (a : Nat) (v : Bytes) :
    (m.store a v).slices a = v := by
  simp [Mem.store]

/-- C10: for a destination of type pointer-to-bytes or pointer-to-raw-JSON
(d is the pointer: none is nil, some a an address), scan returns the
sentinel nil-pointer error exactly when the pointer is nil, and then memory
is left as it was; otherwise, for every raw value, valid JSON or not, it
returns nil and the value then read through the pointer has the bytes and
the length of raw.  The result does not depend on the JSON decoder. -/
theorem scan_raw_destination (errNilPtr : GoError)
    (Unmarshal Unmarshal2 : Bytes → D → Mem W → Option GoError × Mem W)
    (d : Option Nat) (val : Bytes) (m : Mem W) :
    ((scan errNilPtr Unmarshal (Dest.bytesPtr d) val m).1 = some errNilPtr ↔ d = none) ∧
    ((scan errNilPtr Unmarshal (Dest.rawMessagePtr d) val m).1 = some errNilPtr ↔ d = none) ∧
    (match d with
      | none =>
        scan errNilPtr Unmarshal (Dest.bytesPtr none) val m = (some errNilPtr, m) ∧
        scan errNilPtr Unmarshal (Dest.rawMessagePtr none) val m = (some errNilPtr, m)
      | some a =>
        (scan errNilPtr Unmarshal (Dest.bytesPtr (some a)) val m).1 = none ∧
        (scan errNilPtr Unmarshal (Dest.bytesPtr (some a)) val m).2.slices a =
          some val.toList ∧
        ((scan errNilPtr Unmarshal (Dest.bytesPtr (some a)) val m).2.slices a).toList =
          val.toList ∧
        ((scan errNilPtr Unmarshal (Dest.bytesPtr (some a)) val m).2.slices a).len = val.len ∧
        (scan errNilPtr Unmarshal (Dest.rawMessagePtr (some a)) val m).1 = none ∧
        (scan errNilPtr Unmarshal (Dest.rawMessagePtr (some a)) val m).2.slices a = val ∧
        ((scan errNilPtr Unmarshal (Dest.rawMessagePtr (some a)) val m).2.slices a).toList =
          val.toList ∧
        ((scan errNilPtr Unmarshal (Dest.rawMessagePtr (some a)) val m).2.slices a).len =
          val.len) ∧
    scan errNilPtr Unmarshal (Dest.bytesPtr d) val m =
      scan errNilPtr Unmarshal2 (Dest.bytesPtr d) val m ∧
    scan errNilPtr Unmarshal (Dest.rawMessagePtr d) val m =
      scan errNilPtr Unmarshal2 (Dest.rawMessagePtr d) val m := by
  cases d with
  | none => simp [scan]
  | some a =>
    have ht : Bytes.toList (some val.toList) = val.toList := rfl
    have hn : Bytes.len (some val.toList) = val.len := rfl
    simp [scan, copy_make, Mem.store_slices_self, ht, hn]

end ScanTheorems

section LockTheorems

variable {σ V : Type}

/-- The method `next` with its locking computes what `Iterator.next` does. -/
theorem Locked.next_it (F : iterator σ V) (e : Locked σ V) :
    (e.next F).1 = (e.it.next F).1 ∧ (e.next F).2.it = (e.it.next F).2 := by
  by_cases hc : e.it.closed = true
  · simp [Locked.next, Locked.RLock, Locked.RUnlock, Iterator.next, hc]
  · cases hr : (F.Next e.it.feed e.it.curVal).1 <;>
      simp [Locked.next, Locked.RLock, Locked.RUnlock, Locked.setReady, Locked.setLasterr,
        Iterator.next, hc, hr]

/-- The method `close` with its locking computes what `Iterator.close` does. -/
theorem Locked.close_it (F : iterator σ V) (e : Locked σ V) (err : Option GoError) :
    (e.close F err).1 = (e.it.close F err).1 ∧ (e.close F err).2.it = (e.it.close F err).2 := by
  by_cases hc : e.it.closed = true
  · simp [Locked.close, Locked.Lock, Locked.Unlock, Iterator.close, hc]
  · by_cases hl : e.it.lasterr = none <;> by_cases hcan : e.it.cancel = true <;>
      simp [Locked.close, Locked.Lock, Locked.Unlock, Locked.setClosed, Locked.setLasterr,
        Iterator.close, hc, hl, hcan]

/-- The assignments of `next`, started with `mu` not held. -/
theorem Locked.next_writes (F : iterator σ V) (i : Iterator σ V) :
    ((Locked.start i).next F).2.writes =
      (if i.closed = true then []
       else [⟨Field.lasterr, Held.shared⟩, ⟨Field.ready, Held.shared⟩]) ∧
    ((Locked.start i).next F).2.mu = Held.unlocked := by
  by_cases hc : i.closed = true
  · simp [Locked.next, Locked.start, Locked.RLock, Locked.RUnlock, hc]
  · cases hr : (F.Next i.feed i.curVal).1 <;>
      simp [Locked.next, Locked.start, Locked.RLock, Locked.RUnlock, Locked.setReady,
        Locked.setLasterr, hc, hr]

/-- The assignments of `close`, whatever was assigned before. -/
theorem Locked.close_writes (F : iterator σ V) (e : Locked σ V) (err : Option GoError) :
    (e.close F err).2.writes =
      (if e.it.closed = true then []
       else if e.it.lasterr = none then
         [⟨Field.lasterr, Held.exclusive⟩, ⟨Field.closed, Held.exclusive⟩]
       else [⟨Field.closed, Held.exclusive⟩]) ++ e.writes ∧
    (e.close F err).2.mu = Held.unlocked := by
  by_cases hc : e.it.closed = true
  · simp [Locked.close, Locked.Lock, Locked.Unlock, hc]
  · by_cases hl : e.it.lasterr = none <;> by_cases hcan : e.it.cancel = true <;>
      simp [Locked.close, Locked.Lock, Locked.Unlock, Locked.setClosed, Locked.setLasterr,
        hc, hl, hcan]

/-- What each method assigns, and how the lock is held at each assignment.
The method close (an explicit Close, a cancellation-close, and the Close
that Next issues after a failed advance) assigns closed, and lasterr when it
is nil, holding the lock in exclusive mode; next, the advance step of Next,
assigns ready and lasterr holding the lock in shared mode only; Err assigns
nothing; every method releases the lock.  The methods with their locking
compute what the plain methods compute. -/
theorem lock_discipline (F : iterator σ V) (i : Iterator σ V) (err : Option GoError) :
    ((Locked.start i).close F err).2.writes =
      (if i.closed = true then []
       else if i.lasterr = none then
         [⟨Field.lasterr, Held.exclusive⟩, ⟨Field.closed, Held.exclusive⟩]
       else [⟨Field.closed, Held.exclusive⟩]) ∧
    AllExclusive ((Locked.start i).close F err).2.writes ∧
    AllExclusive ((Locked.start i).Close F).2.writes ∧
    ((Locked.start i).next F).2.writes =
      (if i.closed = true then []
       else [⟨Field.lasterr, Held.shared⟩, ⟨Field.ready, Held.shared⟩]) ∧
    ((Locked.start i).Next F).2.writes =
      (if i.closed = true then []
       else match (F.Next i.feed i.curVal).1 with
         | none => [⟨Field.lasterr, Held.shared⟩, ⟨Field.ready, Held.shared⟩]
         | some _ =>
           [⟨Field.closed, Held.exclusive⟩, ⟨Field.lasterr, Held.shared⟩,
            ⟨Field.ready, Held.shared⟩]) ∧
    AllHeld ((Locked.start i).Next F).2.writes ∧
    (Locked.start i).Err.2.writes = [] ∧
    ((Locked.start i).close F err).2.mu = Held.unlocked ∧
    ((Locked.start i).Next F).2.mu = Held.unlocked ∧
    (Locked.start i).Err.2.mu = Held.unlocked ∧
    ((Locked.start i).close F err).1 = (i.close F err).1 ∧
    ((Locked.start i).close F err).2.it = (i.close F err).2 ∧
    ((Locked.start i).Next F).1 = (i.Next F).1 ∧
    ((Locked.start i).Next F).2.it = (i.Next F).2 ∧
    (Locked.start i).Err.1 = i.Err.1 ∧
    (Locked.start i).Err.2.it = i.Err.2 := by
  have hcw : ∀ err : Option GoError, ((Locked.start i).close F err).2.writes =
      (if i.closed = true then []
       else if i.lasterr = none then
         [⟨Field.lasterr, Held.exclusive⟩, ⟨Field.closed, Held.exclusive⟩]
       else [⟨Field.closed, Held.exclusive⟩]) := by
    intro err
    have h := (Locked.close_writes F (Locked.start i) err).1
    simpa [Locked.start] using h
  have hce : ∀ err : Option GoError, AllExclusive ((Locked.start i).close F err).2.writes := by
    intro err
    rw [hcw err]
    intro w hw
    by_cases hc : i.closed = true
    · simp [hc] at hw
    · by_cases hl : i.lasterr = none
      · simp [hc, hl] at hw
        rcases hw with rfl | rfl <;> rfl
      · simp [hc, hl] at hw
        rw [hw]
  have hnw := Locked.next_writes F i
  have hNw : ((Locked.start i).Next F).2.writes =
      (if i.closed = true then []
       else match (F.Next i.feed i.curVal).1 with
         | none => [⟨Field.lasterr, Held.shared⟩, ⟨Field.ready, Held.shared⟩]
         | some _ =>
           [⟨Field.closed, Held.exclusive⟩, ⟨Field.lasterr, Held.shared⟩,
            ⟨Field.ready, Held.shared⟩]) := by
    by_cases hc : i.closed = true
    · simp [Locked.Next, Locked.next, Locked.start, Locked.RLock, Locked.RUnlock, hc]
    · cases hr : (F.Next i.feed i.curVal).1 with
      | none =>
        simp [Locked.Next, Locked.next, Locked.start, Locked.RLock, Locked.RUnlock,
          Locked.setReady, Locked.setLasterr, hc, hr]
      | some r =>
        by_cases hcan : i.cancel = true <;>
          simp [Locked.Next, Locked.next, Locked.Close, Locked.close, Locked.start,
            Locked.RLock, Locked.RUnlock, Locked.Lock, Locked.Unlock, Locked.setReady,
            Locked.setLasterr, Locked.setClosed, hc, hr, hcan]
  have hNh : AllHeld ((Locked.start i).Next F).2.writes := by
    rw [hNw]
    intro w hw
    by_cases hc : i.closed = true
    · simp [hc] at hw
    · cases hr : (F.Next i.feed i.curVal).1 with
      | none =>
        simp [hc, hr] at hw
        rcases hw with rfl | rfl <;> simp
      | some r =>
        simp [hc, hr] at hw
        rcases hw with rfl | rfl | rfl <;> simp
  have hNmu : ((Locked.start i).Next F).2.mu = Held.unlocked := by
    by_cases hd : ((Locked.start i).next F).1.1 = true
    · have h := (Locked.close_writes F ((Locked.start i).next F).2 none).2
      simpa [Locked.Next, Locked.Close, hd] using h
    · simpa [Locked.Next, hd] using hnw.2
  have hNit : ((Locked.start i).Next F).1 = (i.Next F).1 ∧
      ((Locked.start i).Next F).2.it = (i.Next F).2 := by
    have hn := Locked.next_it F (Locked.start i)
    have hi : (Locked.start i).it = i := rfl
    rw [hi] at hn
    have hcl := (Locked.close_it F ((Locked.start i).next F).2 none).2
    rw [hn.2] at hcl
    by_cases hd : (i.next F).1.1 = true
    · have hd2 : ((Locked.start i).next F).1.1 = true := by rw [hn.1]; exact hd
      simp [Locked.Next, Iterator.Next, Locked.Close, Iterator.Close, hd, hd2, hn.1, hcl]
    · have hd2 : ¬ ((Locked.start i).next F).1.1 = true := by rw [hn.1]; exact hd
      simp [Locked.Next, Iterator.Next, hd, hd2, hn.1, hn.2]
  have hErr : (Locked.start i).Err.2.writes = [] ∧ (Locked.start i).Err.2.mu = Held.unlocked ∧
      (Locked.start i).Err.1 = i.Err.1 ∧ (Locked.start i).Err.2.it = i.Err.2 := by
    by_cases he : i.lasterr = some GoError.EOF <;>
      simp [Locked.Err, Locked.start, Locked.RLock, Locked.RUnlock, Iterator.Err, he]
  have hcit := Locked.close_it F (Locked.start i) err
  exact ⟨hcw err, hce err, hce none, hnw.1, hNw, hNh, hErr.1,
    (Locked.close_writes F _ err).2, hNmu, hErr.2.1, hcit.1, hcit.2, hNit.1, hNit.2,
    hErr.2.2.1, hErr.2.2.2⟩

/-- C11: every write to lasterr, ready and closed should be made while the
lock is held in exclusive mode, as close does.  The code breaks this: on a
new iterator whose feed's advance returns nil, Next assigns ready and
lasterr while the lock is held in shared mode only, so not every assignment
of that call is made in exclusive mode. -/
theorem Next_writes_under_shared_lock :
    ((Locked.start (newIterator (mockIterator none none) 0)).Next
        (mockIterator none none)).2.writes =
      [⟨Field.lasterr, Held.shared⟩, ⟨Field.ready, Held.shared⟩] ∧
    ¬ AllExclusive ((Locked.start (newIterator (mockIterator none none) 0)).Next
        (mockIterator none none)).2.writes :=
  ⟨rfl, fun h => absurd (h ⟨Field.lasterr, Held.shared⟩ (List.mem_cons_self _ _)) (by decide)⟩

end LockTheorems

end Kivik
